import Mathlib

/-!
Shallow embedding of the RAG query pipeline of the EaglesOak realtor site
(netlify/functions/aiRagSearch.ts, with its generation proxy
netlify/functions/qrog.ts), together with theorems settling the frozen
claims about it.

Conventions of the embedding:
* JavaScript runtime values that flow through the handler (database row
  fields, provider responses) are modelled by the inductive type `JSVal`.
  JS numbers are modelled as rationals (`Rat`); every finite double is a
  rational.  Rendering of numbers (`jsNumStr`) is exact for integers; a
  non-integral rational renders as a num/den pair, a deviation from the
  shortest-round-trip printing of doubles that no claim exercises.
* The four external collaborators (embedding provider, vector-store RPC,
  property lookup, generation provider) are modelled as oracle outcomes
  passed to the handler; the handler also returns a `Calls` trace saying
  which collaborators it consulted, and with which prompt the generation
  provider was called.
-/

namespace EaglesOak

/-- Model of a JavaScript runtime value as it occurs in the handler:
`undefined`, `null`, strings, numbers (as rationals), booleans, arrays and
plain objects (association lists with the JS invariant of unique keys). -/
inductive JSVal where
  | undefinedV : JSVal
  | null : JSVal
  | str : String → JSVal
  | num : Rat → JSVal
  | bool : Bool → JSVal
  | arr : List JSVal → JSVal
  | obj : List (String × JSVal) → JSVal

/-- JS truthiness: `undefined`, `null`, the empty string, `0` and `false`
are falsy; arrays and objects are always truthy. -/
def JSVal.truthy : JSVal → Bool
  | .undefinedV => false
  | .null => false
  | .str s => !(s == "")
  | .num q => !(q == 0)
  | .bool b => b
  | .arr _ => true
  | .obj _ => true

/-- JS nullish test (`undefined` or `null`), the guard of the `??` operator. -/
def JSVal.isNullish : JSVal → Bool
  | .undefinedV => true
  | .null => true
  | _ => false

/-- Test for the `undefined` value (the `!== undefined` comparison). -/
def JSVal.isUndefinedV : JSVal → Bool
  | .undefinedV => true
  | _ => false

/-- JS String.prototype.trim, modelled over the character list: leading
and trailing whitespace characters are removed (the whitespace set is the
ASCII whitespace the claims exercise). -/
def jsTrim (s : String) : String :=
  String.mk (((s.data.dropWhile Char.isWhitespace).reverse.dropWhile Char.isWhitespace).reverse)

/-- The JS `||` operator on values. -/
def jsOr (a b : JSVal) : JSVal := if a.truthy then a else b

/-- The JS `??` (nullish coalescing) operator on values. -/
def jsCoalesce (a b : JSVal) : JSVal := if a.isNullish then b else a

/-- Accumulator loop producing the decimal digit characters of `n` in
front of `acc`; `fuel` bounds the recursion depth (any fuel at least the
digit count of `n` yields all digits, and `natDecDigits` passes `n`
itself). -/
def natDecDigitsGo : Nat → Nat → List Char → List Char
  | 0, n, acc => Char.ofNat (48 + n % 10) :: acc
  | fuel + 1, n, acc =>
    if n < 10 then Char.ofNat (48 + n) :: acc
    else natDecDigitsGo fuel (n / 10) (Char.ofNat (48 + n % 10) :: acc)

/-- Decimal digit characters of a natural number, most significant first. -/
def natDecDigits (n : Nat) : List Char := natDecDigitsGo n n []

/-- Decimal string of a natural number. -/
def natDecStr (n : Nat) : String := String.mk (natDecDigits n)

/-- Rendering of our rational model of a JS number to a string, as used by
template literals and JSON serialization: exact decimal digits for
integers (with a leading minus sign when negative); non-integral rationals
(exercised by no claim) render as a num/den pair. -/
def jsNumStr (q : Rat) : String :=
  if q.den = 1 then
    (if q.num < 0 then "-" else "") ++ natDecStr q.num.natAbs
  else
    (if q.num < 0 then "-" else "") ++ natDecStr q.num.natAbs ++ "/" ++ natDecStr q.den

mutual

/-- JS ToString coercion as applied by template literals: `undefined` and
`null` print their names, arrays join their elements with a comma
(nullish elements printing empty), plain objects print the standard
object tag. -/
def JSVal.render : JSVal → String
  | .undefinedV => "undefined"
  | .null => "null"
  | .str s => s
  | .num q => jsNumStr q
  | .bool b => cond b "true" "false"
  | .obj _ => "[object Object]"
  | .arr xs => String.intercalate "," (JSVal.renderElems xs)

/-- Rendering of the elements of an array under ToString: nullish
elements print empty, the rest render recursively. -/
def JSVal.renderElems : List JSVal → List String
  | [] => []
  | x :: xs => (if x.isNullish then "" else x.render) :: JSVal.renderElems xs

end

/-- Escaping of one character inside a JSON string literal (the escapes
relevant to this development: quote, backslash and common controls). -/
def jsonEscapeChar (c : Char) : String :=
  if c = Char.ofNat 34 then String.mk [Char.ofNat 92, Char.ofNat 34]
  else if c = Char.ofNat 92 then String.mk [Char.ofNat 92, Char.ofNat 92]
  else if c = Char.ofNat 10 then String.mk [Char.ofNat 92, Char.ofNat 110]
  else if c = Char.ofNat 13 then String.mk [Char.ofNat 92, Char.ofNat 114]
  else if c = Char.ofNat 9 then String.mk [Char.ofNat 92, Char.ofNat 116]
  else String.singleton c

/-- A JSON string literal for `s` (quotes around the escaped characters). -/
def jsonQuote (s : String) : String :=
  String.singleton (Char.ofNat 34) ++ String.join (s.data.map jsonEscapeChar)
    ++ String.singleton (Char.ofNat 34)

mutual

/-- JSON.stringify on a JS value; `none` models the JS behaviour of
returning the `undefined` value (not a string) on `undefined` input.
Inside arrays an undefined element serializes as null; inside objects an
entry with undefined value is dropped. -/
def jsonStringifyQ : JSVal → Option String
  | .undefinedV => none
  | .null => some "null"
  | .bool b => some (cond b "true" "false")
  | .num q => some (jsNumStr q)
  | .str s => some (jsonQuote s)
  | .arr xs => some ("[" ++ String.intercalate "," (jsonStringifyElems xs) ++ "]")
  | .obj fs => some ("\x7b" ++ String.intercalate "," (jsonStringifyFields fs) ++ "\x7d")

/-- Serialization of array elements: an undefined element serializes as
null. -/
def jsonStringifyElems : List JSVal → List String
  | [] => []
  | x :: xs => (jsonStringifyQ x).getD "null" :: jsonStringifyElems xs

/-- Serialization of object entries: an entry with undefined value is
dropped. -/
def jsonStringifyFields : List (String × JSVal) → List String
  | [] => []
  | (k, v) :: fs =>
    match jsonStringifyQ v with
    | some sv => (jsonQuote k ++ ":" ++ sv) :: jsonStringifyFields fs
    | none => jsonStringifyFields fs

end

/-- Total JSON.stringify as the handler uses it (every call site passes a
value that is not `undefined`; on `undefined` the JS result would render
as the word undefined in any later string context). -/
def jsonStringify (v : JSVal) : String := (jsonStringifyQ v).getD "undefined"

/-- JS property access `v.k` as the handler uses it: objects look their key
up (JS objects carry unique keys), every other value yields `undefined`
for the keys the handler reads (text, content, output, choices, metadata
are properties of no primitive).  Every call site first guards against a
nullish receiver, on which JS itself would throw. -/
def jsGet : JSVal → String → JSVal
  | .obj fs, k =>
    match fs.find? (fun kv => kv.1 == k) with
    | some kv => kv.2
    | none => .undefinedV
  | _, _ => .undefinedV

/-- JS index access `v[0]` on a non-nullish receiver: first array element,
the key "0" of an object, the first character of a string. -/
def jsIndexZero : JSVal → JSVal
  | .arr [] => .undefinedV
  | .arr (x :: _) => x
  | .obj fs => jsGet (.obj fs) "0"
  | .str s =>
    match s.data with
    | [] => .undefinedV
    | c :: _ => .str (String.singleton c)
  | _ => .undefinedV

/-- The optional chain `qrogResponse.choices?.[0]?.text` of the handler
(step 7): each `?.` short-circuits to `undefined` on a nullish receiver. -/
def choicesFirstText (v : JSVal) : JSVal :=
  let c := jsGet v "choices"
  if c.isNullish then .undefinedV
  else
    let e := jsIndexZero c
    if e.isNullish then .undefinedV else jsGet e "text"

/-- Response normalization of step 7 of the handler (aiRagSearch.ts lines
452 to 463): a falsy response gives the fixed fallback sentence, a string
is used as is, then a truthy `output` field, then a truthy
`choices[0].text`, else the raw JSON serialization of the response. -/
def normalizeAnswer (q : JSVal) : JSVal :=
  if q.truthy = false then .str "No answer from LLM."
  else
    match q with
    | .str s => .str s
    | _ =>
      let out := jsGet q "output"
      if out.truthy then out
      else
        let ct := choicesFirstText q
        if ct.truthy then ct
        else .str (jsonStringify q)

/-- A row returned by the `match_property_embeddings` RPC: a JSON object,
modelled as its field list (the source comments describe rows like
an object with property_id and metadata fields). -/
abbrev Row := List (String × JSVal)

/-- Rendering of one retrieved row into its context line content:
`const meta = r.metadata || r; meta.text || meta.content ||
JSON.stringify(meta)` (aiRagSearch.ts lines 412 to 416). -/
def docTextVal (r : Row) : JSVal :=
  let meta := jsOr (jsGet (.obj r) "metadata") (.obj r)
  jsOr (jsGet meta "text") (jsOr (jsGet meta "content") (.str (jsonStringify meta)))

/-- The property record as selected by the handler from the `properties`
table (aiRagSearch.ts lines 379 to 386); each field holds a JS value. -/
structure PropertyRow where
  id : JSVal
  title : JSVal
  description : JSVal
  price : JSVal
  currency : JSVal
  city : JSVal
  district : JSVal
  bedrooms : JSVal
  bathrooms : JSVal
  sqft : JSVal
  amenities : JSVal
  seo_tags : JSVal
  investment_index : JSVal
  market_sentiment : JSVal

/-- Array.prototype.join with a separator: nullish elements render empty,
others by ToString.  Modelled on array values only: the handler applies
it solely to `amenities || []`, an array in every reachable run. -/
def jsJoin (v : JSVal) (sep : String) : String :=
  match v with
  | .arr xs => String.intercalate sep
      (xs.map (fun x => if x.isNullish then "" else x.render))
  | _ => ""

/-- One turn of the conversation list in the request body
(`{ role: string; content: string }`). -/
structure Turn where
  role : String
  content : String
deriving DecidableEq

/-- Rendering of one conversation turn into its context line
(aiRagSearch.ts line 423). -/
def renderTurn (m : Turn) : String :=
  (if m.role = "user" then "User" else "Assistant") ++ ": " ++ m.content

/-- Context assembly, steps 4 of the handler (aiRagSearch.ts lines 396 to
425): direct property facts when a property row was found, then the
retrieved documents capped at matchK, then the recent conversation capped
at its last 6 turns. -/
def buildContextParts (propertyRow : Option PropertyRow) (retrievals : List Row)
    (matchK : Nat) (conversation : List Turn) : List String :=
  (match propertyRow with
   | some p =>
       ["Property Title: " ++ p.title.render]
       ++ (if p.description.truthy then ["Description: " ++ p.description.render] else [])
       ++ ["Price: " ++ ((jsCoalesce p.currency (.str "NGN")).render ++ " "
             ++ (jsCoalesce p.price (.str "N/A")).render)]
       ++ (if p.city.truthy then
             ["Location: " ++ (p.city.render
               ++ (if p.district.truthy then ", " ++ p.district.render else ""))]
           else [])
       ++ (if p.bedrooms.isUndefinedV then [] else ["Bedrooms: " ++ p.bedrooms.render])
       ++ (if p.bathrooms.isUndefinedV then [] else ["Bathrooms: " ++ p.bathrooms.render])
       ++ (if p.sqft.truthy then ["Size (sqft): " ++ p.sqft.render] else [])
       ++ (if p.amenities.truthy then
             ["Amenities: " ++ jsJoin (jsOr p.amenities (.arr [])) ", "]
           else [])
       ++ (if p.investment_index.truthy then
             ["Investment index: " ++ p.investment_index.render]
           else [])
       ++ (if p.market_sentiment.truthy then
             ["Market sentiment: " ++ p.market_sentiment.render]
           else [])
   | none => [])
  ++ (retrievals.take matchK).enum.map
       (fun ir => "Context doc " ++ (natDecStr (ir.1 + 1) ++ (": " ++ (docTextVal ir.2).render)))
  ++ (if conversation.length ≠ 0 then
        "Conversation history:"
          :: (conversation.drop (conversation.length - 6)).map renderTurn
      else [])

/-- The fixed system instruction opening the prompt (aiRagSearch.ts line
429). -/
def systemInstruction : String :=
  "You are EaglesOak Realty Assistant, a professional AI designed to answer property questions using ONLY the provided context. Be concise, factual, and include assumptions if you estimate numbers."

/-- Prompt construction, step 5 of the handler (aiRagSearch.ts lines 428
to 440): system instruction, context block, user query, output
instructions, joined by newlines. -/
def buildPrompt (query : String) (propertyRow : Option PropertyRow)
    (retrievals : List Row) (matchK : Nat) (conversation : List Turn) : String :=
  String.intercalate "\n"
    ([systemInstruction, "-----", "Context:"]
     ++ buildContextParts propertyRow retrievals matchK conversation
     ++ ["-----", "User query: " ++ query, "-----", "Instructions:",
         "- Use the context above. If the context does not contain enough information, say what additional info you need.",
         "- Provide clear investment insights and risk notes where applicable.",
         "- Keep answer under 220 words and include a 1-2 sentence conclusion with recommended next steps."])

/-- The parsed request body of the handler (type RequestBody of
aiRagSearch.ts); absent fields are `none`. -/
structure RequestBody where
  query : Option String
  propertyId : Option String
  conversation : Option (List Turn)
  matchK : Option Nat

/-- Outcome of the embedding provider call (getEmbedding): a vector, or a
thrown error (unreachable provider or unaccepted response shape). -/
inductive EmbedOutcome where
  | ok (vector : List Rat)
  | fails

/-- Outcome of the supabase RPC `match_property_embeddings`: a thrown
exception, an error result, or data (possibly null). -/
inductive RpcOutcome where
  | throws
  | errorResult
  | okResult (rpcData : Option (List Row))

/-- Outcome of the direct property lookup: a row, or not found or error
(both treated alike by the handler). -/
inductive LookupOutcome where
  | found (row : PropertyRow)
  | missing

/-- Outcome of the generation call (callQrog): parsed response data, a
non-success HTTP status (callQrog throws), or a transport failure. -/
inductive QrogOutcome where
  | ok (data : JSVal)
  | httpError
  | transportError

/-- The value the handler returns to the client: an error response with
its status code and error message, or the success payload of step 8
(answer, contextSummary, retrievedCount). -/
inductive HandlerResult where
  | errorResp (statusCode : Nat) (error : String)
  | success (answer : JSVal) (contextSummary : List String) (retrievedCount : Nat)

/-- Trace of which collaborators the handler consulted during a run; for
the generation provider it records the prompt sent, when called. -/
structure Calls where
  embedding : Bool
  rpc : Bool
  lookup : Bool
  generation : Option String

/-- No collaborator consulted. -/
def noCalls : Calls := ⟨false, false, false, none⟩

/-- The aiRagSearch handler (aiRagSearch.ts lines 322 to 480) over the
oracle outcomes of its four collaborators.  `defaultMatchK` models the
configuration constant DEFAULT_MATCH_K (RAG_MATCH_K or 4); `body` is the
parsed request body, `none` when the request carried no body. -/
def handler (defaultMatchK : Nat) (body : Option RequestBody)
    (embedO : EmbedOutcome) (rpcO : RpcOutcome) (lookupO : LookupOutcome)
    (qrogO : QrogOutcome) : HandlerResult × Calls :=
  match body with
  | none => (.errorResp 400 "Missing request body", noCalls)
  | some b =>
    let query := jsTrim (b.query.getD "")
    let propertyId : Option String :=
      match b.propertyId with
      | some s => if s = "" then none else some s
      | none => none
    let matchK := b.matchK.getD defaultMatchK
    let conversation := b.conversation.getD []
    if query = "" then (.errorResp 400 "Query is required", noCalls)
    else
      match embedO with
      | .fails => (.errorResp 500 "Embedding generation failed", ⟨true, false, false, none⟩)
      | .ok _vec =>
        let retrievals : List Row :=
          match rpcO with
          | .throws => []
          | .errorResult => []
          | .okResult d => d.getD []
        let lookupCalled := propertyId.isSome
        let propertyRow : Option PropertyRow :=
          match propertyId with
          | none => none
          | some _ =>
            match lookupO with
            | .found row => some row
            | .missing => none
        let contextParts := buildContextParts propertyRow retrievals matchK conversation
        let prompt := buildPrompt query propertyRow retrievals matchK conversation
        match qrogO with
        | .httpError => (.errorResp 502 "LLM generation failed", ⟨true, true, lookupCalled, some prompt⟩)
        | .transportError => (.errorResp 502 "LLM generation failed", ⟨true, true, lookupCalled, some prompt⟩)
        | .ok data =>
          (.success (normalizeAnswer data) (contextParts.take 6) retrievals.length,
           ⟨true, true, lookupCalled, some prompt⟩)

/-- The answer field of a handler result, when it is a success payload. -/
def HandlerResult.answerOf : HandlerResult → Option JSVal
  | .success a _ _ => some a
  | _ => none

/-- The retrievedCount field of a handler result, when it is a success
payload. -/
def HandlerResult.retrievedCountOf : HandlerResult → Option Nat
  | .success _ _ n => some n
  | _ => none

/-! ### Helper lemmas -/

theorem natDecDigitsGo_ne_nil (fuel n : Nat) (acc : List Char) :
    natDecDigitsGo fuel n acc ≠ [] := by
  induction fuel generalizing n acc with
  | zero => simp [natDecDigitsGo]
  | succ f ih =>
    rw [natDecDigitsGo]
    split
    · simp
    · exact ih _ _

theorem natDecDigits_ne_nil (n : Nat) : natDecDigits n ≠ [] :=
  natDecDigitsGo_ne_nil n n []

theorem string_mk_ne_empty (l : List Char) (h : l ≠ []) : String.mk l ≠ "" := by
  intro he
  exact h (congrArg String.data he)

theorem str_eq_empty_of_data (s : String) (h : s.data = []) : s = "" :=
  String.ext (by simp [h])

theorem append_ne_empty_right (a b : String) (hb : b ≠ "") : a ++ b ≠ "" := by
  intro h
  apply hb
  have hd := congrArg String.data h
  rw [String.data_append] at hd
  exact str_eq_empty_of_data b (List.append_eq_nil.mp hd).2

theorem append_ne_empty_left (a b : String) (ha : a ≠ "") : a ++ b ≠ "" := by
  intro h
  apply ha
  have hd := congrArg String.data h
  rw [String.data_append] at hd
  exact str_eq_empty_of_data a (List.append_eq_nil.mp hd).1

theorem natDecStr_ne_empty (n : Nat) : natDecStr n ≠ "" :=
  string_mk_ne_empty _ (natDecDigits_ne_nil n)

theorem jsNumStr_ne_empty (q : Rat) : jsNumStr q ≠ "" := by
  unfold jsNumStr
  split
  · exact append_ne_empty_right _ _ (natDecStr_ne_empty _)
  · exact append_ne_empty_right _ _ (natDecStr_ne_empty _)

theorem jsonStringify_ne_empty (v : JSVal) : jsonStringify v ≠ "" := by
  cases v with
  | undefinedV => simp [jsonStringify, jsonStringifyQ]
  | null => simp [jsonStringify, jsonStringifyQ]
  | str s =>
    simp only [jsonStringify, jsonStringifyQ, Option.getD_some]
    exact append_ne_empty_left (String.singleton (Char.ofNat 34)) _ (by decide)
  | num q =>
    simp only [jsonStringify, jsonStringifyQ, Option.getD_some]
    exact jsNumStr_ne_empty q
  | bool b => cases b <;> simp [jsonStringify, jsonStringifyQ]
  | arr xs =>
    simp only [jsonStringify, jsonStringifyQ, Option.getD_some]
    exact append_ne_empty_left "[" _ (by decide)
  | obj fs =>
    simp only [jsonStringify, jsonStringifyQ, Option.getD_some]
    exact append_ne_empty_left "\x7b" _ (by decide)

theorem str_ne_of_ne {a b : String} (h : a ≠ b) : JSVal.str a ≠ JSVal.str b := by
  intro he
  injection he with h2
  exact h h2

theorem truthy_ne_str_empty {v : JSVal} (h : v.truthy = true) : v ≠ JSVal.str "" := by
  intro he
  subst he
  simp [JSVal.truthy] at h

theorem normalize_default_ne (v : JSVal) :
    (let out := jsGet v "output";
     if out.truthy = true then out
     else
       let ct := choicesFirstText v;
       if ct.truthy = true then ct else JSVal.str (jsonStringify v)) ≠ JSVal.str "" := by
  simp only []
  split
  · next h => exact truthy_ne_str_empty h
  · split
    · next h => exact truthy_ne_str_empty h
    · exact str_ne_of_ne (jsonStringify_ne_empty v)

theorem normalizeAnswer_ne_empty (v : JSVal) : normalizeAnswer v ≠ JSVal.str "" := by
  by_cases hv : v.truthy = false
  · unfold normalizeAnswer
    rw [if_pos hv]
    exact str_ne_of_ne (by decide)
  · unfold normalizeAnswer
    rw [if_neg hv]
    cases v with
    | str s =>
      have hs : s ≠ "" := by
        intro h
        subst h
        exact hv rfl
      exact str_ne_of_ne hs
    | undefinedV => exact absurd rfl hv
    | null => exact absurd rfl hv
    | num q => exact normalize_default_ne (.num q)
    | bool b => exact normalize_default_ne (.bool b)
    | arr xs => exact normalize_default_ne (.arr xs)
    | obj fs => exact normalize_default_ne (.obj fs)

theorem length_ite_singleton {α : Type} (c : Prop) [Decidable c] (x : α) :
    (if c then [x] else ([] : List α)).length = if c then 1 else 0 := by
  split <;> rfl

theorem length_ite_singleton_flip {α : Type} (c : Prop) [Decidable c] (x : α) :
    (if c then ([] : List α) else [x]).length = if c then 0 else 1 := by
  split <;> rfl

theorem append_head_ne_absurd {c d : Char} (hcd : c ≠ d) (a b s t : String)
    (h : a ++ s = b ++ t) (ha : a.data.head? = some c) (hb : b.data.head? = some d) :
    False := by
  have hdata : a.data ++ s.data = b.data ++ t.data := by
    have h2 := congrArg String.data h
    rwa [String.data_append, String.data_append] at h2
  cases hda : a.data with
  | nil => rw [hda] at ha; exact Option.noConfusion ha
  | cons x xs =>
    cases hdb : b.data with
    | nil => rw [hdb] at hb; exact Option.noConfusion hb
    | cons y ys =>
      rw [hda, hdb] at hdata
      rw [hda] at ha
      rw [hdb] at hb
      simp only [List.head?_cons, Option.some.injEq] at ha hb
      simp only [List.cons_append, List.cons.injEq] at hdata
      apply hcd
      rw [← ha, ← hb]
      exact hdata.1

theorem truthy_num_zero : (JSVal.num 0).truthy = false := by
  simp [JSVal.truthy]

theorem truthy_undefinedV : JSVal.undefinedV.truthy = false := rfl

/-! ### Claim theorems -/

/-- C1: for every request whose trimmed query is non-empty, when the
retrieval RPC succeeds (returning `rows`) and the generation call
succeeds, the handler's response carries a non-empty answer and a
retrievedCount equal to the number of rows the RPC returned, before the
K-cap applied during context assembly. -/
theorem aiRagSearch_success_payload (dK : Nat) (b : RequestBody) (vec : List Rat)
    (rows : List Row) (lookupO : LookupOutcome) (data : JSVal)
    (hq : jsTrim (b.query.getD "") ≠ "") :
    (∃ a, ((handler dK (some b) (.ok vec) (.okResult (some rows)) lookupO (.ok data)).1).answerOf
        = some a ∧ a ≠ JSVal.str "")
    ∧ ((handler dK (some b) (.ok vec) (.okResult (some rows)) lookupO (.ok data)).1).retrievedCountOf
        = some rows.length := by
  refine ⟨⟨normalizeAnswer data, ?_, normalizeAnswer_ne_empty data⟩, ?_⟩ <;>
    simp [handler, hq, HandlerResult.answerOf, HandlerResult.retrievedCountOf]

theorem aiRagSearch_success_payload_witness :
    (∃ a, ((handler 4 (some ⟨some "hi", none, none, none⟩) (.ok [])
        (.okResult (some [[("metadata", .obj [("text", .str "A")])]])) .missing
        (.ok (.str "yo"))).1).answerOf = some a ∧ a ≠ JSVal.str "")
    ∧ ((handler 4 (some ⟨some "hi", none, none, none⟩) (.ok [])
        (.okResult (some [[("metadata", .obj [("text", .str "A")])]])) .missing
        (.ok (.str "yo"))).1).retrievedCountOf
        = some ([[("metadata", JSVal.obj [("text", JSVal.str "A")])]] : List Row).length :=
  aiRagSearch_success_payload 4 _ _ _ _ _ (by decide)

/-- C2: for every request whose query is missing, empty, or
whitespace-only, the handler answers a 400 validation failure and
consults none of the four collaborators. -/
theorem aiRagSearch_validation_rejects_blank_query (dK : Nat) (b : RequestBody)
    (embedO : EmbedOutcome) (rpcO : RpcOutcome) (lookupO : LookupOutcome)
    (qrogO : QrogOutcome) (hq : jsTrim (b.query.getD "") = "") :
    handler dK (some b) embedO rpcO lookupO qrogO
      = (.errorResp 400 "Query is required", noCalls) := by
  simp [handler, hq]

theorem aiRagSearch_validation_witness :
    handler 4 (some ⟨some "   ", none, none, none⟩) (.ok []) (.okResult (some []))
        .missing (.ok (.str "yo"))
      = (.errorResp 400 "Query is required", noCalls) :=
  aiRagSearch_validation_rejects_blank_query 4 _ _ _ _ _ (by decide)

/-- C3: for every request with a non-empty query and a successful
embedding step, when the vector-store RPC throws or returns an error the
pipeline still reaches the generation stage, and any success response
reports zero retrieved documents. -/
theorem aiRagSearch_retrieval_degrades (dK : Nat) (b : RequestBody) (vec : List Rat)
    (rpcO : RpcOutcome) (lookupO : LookupOutcome) (qrogO : QrogOutcome)
    (hq : jsTrim (b.query.getD "") ≠ "")
    (hr : rpcO = .throws ∨ rpcO = .errorResult) :
    ((handler dK (some b) (.ok vec) rpcO lookupO qrogO).2.generation).isSome = true
    ∧ ∀ a ctx n, (handler dK (some b) (.ok vec) rpcO lookupO qrogO).1
        = .success a ctx n → n = 0 := by
  rcases hr with h | h <;> subst h <;>
    cases qrogO with
    | ok data =>
      refine ⟨by simp [handler, hq], ?_⟩
      intro a ctx n hn
      simp [handler, hq] at hn
      obtain ⟨-, -, h3⟩ := hn
      omega
    | httpError =>
      exact ⟨by simp [handler, hq], by intro a ctx n hn; simp [handler, hq] at hn⟩
    | transportError =>
      exact ⟨by simp [handler, hq], by intro a ctx n hn; simp [handler, hq] at hn⟩

theorem aiRagSearch_retrieval_degrades_witness :
    ((handler 4 (some ⟨some "hi", none, none, none⟩) (.ok []) .throws .missing
        (.ok (.str "yo"))).2.generation).isSome = true
    ∧ ∀ a ctx n, (handler 4 (some ⟨some "hi", none, none, none⟩) (.ok []) .throws .missing
        (.ok (.str "yo"))).1 = .success a ctx n → n = 0 :=
  aiRagSearch_retrieval_degrades 4 _ _ _ _ _ (by decide) (Or.inl rfl)

/-- C4: for every request that reaches the generation call (non-empty
query, successful embedding), a non-success status or transport failure
of the generation provider makes the handler answer the distinct 502
error with message LLM generation failed. -/
theorem aiRagSearch_generation_failure (dK : Nat) (b : RequestBody) (vec : List Rat)
    (rpcO : RpcOutcome) (lookupO : LookupOutcome) (qrogO : QrogOutcome)
    (hq : jsTrim (b.query.getD "") ≠ "")
    (hg : qrogO = .httpError ∨ qrogO = .transportError) :
    (handler dK (some b) (.ok vec) rpcO lookupO qrogO).1
      = .errorResp 502 "LLM generation failed" := by
  rcases hg with h | h <;> subst h <;> simp [handler, hq]

theorem aiRagSearch_generation_failure_witness :
    (handler 4 (some ⟨some "hi", none, none, none⟩) (.ok []) (.okResult (some []))
        .missing .httpError).1 = .errorResp 502 "LLM generation failed" :=
  aiRagSearch_generation_failure 4 _ _ _ _ _ (by decide) (Or.inl rfl)

/-- C5 (amended): with a property row present, the title line and the
price line are always emitted (the title rendering an absent field as
undefined, the price line with NGN and N/A placeholders), while the
other facts are emitted exactly when their source condition holds
(truthiness for description, city, size, amenities and the two scores;
being distinct from undefined for the bedroom and bathroom counts), as
witnessed by the length of the assembled property-fact section. -/
theorem property_facts_emission (p : PropertyRow) (mk : Nat) :
    ("Property Title: " ++ p.title.render) ∈ buildContextParts (some p) [] mk []
  ∧ ("Price: " ++ ((jsCoalesce p.currency (.str "NGN")).render ++ " "
        ++ (jsCoalesce p.price (.str "N/A")).render)) ∈ buildContextParts (some p) [] mk []
  ∧ (buildContextParts (some p) [] mk []).length
      = 2 + ((if p.description.truthy then 1 else 0) + (if p.city.truthy then 1 else 0)
        + (if p.bedrooms.isUndefinedV then 0 else 1) + (if p.bathrooms.isUndefinedV then 0 else 1)
        + (if p.sqft.truthy then 1 else 0) + (if p.amenities.truthy then 1 else 0)
        + (if p.investment_index.truthy then 1 else 0)
        + (if p.market_sentiment.truthy then 1 else 0)) := by
  refine ⟨?_, ?_, ?_⟩
  · simp [buildContextParts]
  · simp [buildContextParts]
  · simp only [buildContextParts, List.take_nil, List.enum_nil, List.map_nil,
      List.length_nil, ne_eq, not_true_eq_false, if_false, List.append_nil,
      List.length_cons, List.length_append, length_ite_singleton,
      length_ite_singleton_flip]
    split_ifs <;> omega

/-- C5 counterexample: a property row whose title, price and currency are
absent still yields a title line (with the placeholder undefined) and a
price line (with the NGN and N/A placeholders), refuting the claim that
absent fields yield no line. -/
theorem property_placeholder_counterexample :
    buildContextParts
        (some ⟨.undefinedV, .undefinedV, .undefinedV, .undefinedV, .undefinedV, .undefinedV, .undefinedV, .undefinedV,
               .undefinedV, .undefinedV, .undefinedV, .undefinedV, .undefinedV, .undefinedV⟩) [] 4 []
      = ["Property Title: undefined", "Price: NGN N/A"] := rfl

/-- C6 (amended): response normalization first maps every falsy response
(null, empty string, zero, false) to the fixed fallback sentence, then
uses a bare string as is, then a truthy output field, then a truthy text
field of the first choices element, and otherwise the raw JSON
serialization; it is total. -/
theorem response_normalization_order (v : JSVal) :
    (v.truthy = false → normalizeAnswer v = .str "No answer from LLM.")
  ∧ (∀ s, v = .str s → v.truthy = true → normalizeAnswer v = .str s)
  ∧ ((∀ s, v ≠ .str s) → v.truthy = true → (jsGet v "output").truthy = true →
      normalizeAnswer v = jsGet v "output")
  ∧ ((∀ s, v ≠ .str s) → v.truthy = true → (jsGet v "output").truthy = false →
      (choicesFirstText v).truthy = true → normalizeAnswer v = choicesFirstText v)
  ∧ ((∀ s, v ≠ .str s) → v.truthy = true → (jsGet v "output").truthy = false →
      (choicesFirstText v).truthy = false → normalizeAnswer v = .str (jsonStringify v)) := by
  refine ⟨?_, ?_, ?_, ?_, ?_⟩
  · intro h
    unfold normalizeAnswer
    rw [if_pos h]
  · intro s hv ht
    subst hv
    unfold normalizeAnswer
    rw [if_neg (by simp [ht])]
  · intro hns ht ho
    unfold normalizeAnswer
    rw [if_neg (by simp [ht])]
    cases v with
    | str s => exact absurd rfl (hns s)
    | undefinedV => simp [JSVal.truthy] at ht
    | null => simp [JSVal.truthy] at ht
    | num q => exact if_pos ho
    | bool b => exact if_pos ho
    | arr xs => exact if_pos ho
    | obj fs => exact if_pos ho
  · intro hns ht ho hc
    unfold normalizeAnswer
    rw [if_neg (by simp [ht])]
    cases v with
    | str s => exact absurd rfl (hns s)
    | undefinedV => simp [JSVal.truthy] at ht
    | null => simp [JSVal.truthy] at ht
    | num q => exact (if_neg (by simp [ho])).trans (if_pos hc)
    | bool b => exact (if_neg (by simp [ho])).trans (if_pos hc)
    | arr xs => exact (if_neg (by simp [ho])).trans (if_pos hc)
    | obj fs => exact (if_neg (by simp [ho])).trans (if_pos hc)
  · intro hns ht ho hc
    unfold normalizeAnswer
    rw [if_neg (by simp [ht])]
    cases v with
    | str s => exact absurd rfl (hns s)
    | undefinedV => simp [JSVal.truthy] at ht
    | null => simp [JSVal.truthy] at ht
    | num q => exact (if_neg (by simp [ho])).trans (if_neg (by simp [hc]))
    | bool b => exact (if_neg (by simp [ho])).trans (if_neg (by simp [hc]))
    | arr xs => exact (if_neg (by simp [ho])).trans (if_neg (by simp [hc]))
    | obj fs => exact (if_neg (by simp [ho])).trans (if_neg (by simp [hc]))

theorem response_normalization_order_witness :
    normalizeAnswer (JSVal.str "hello") = JSVal.str "hello" :=
  (response_normalization_order (JSVal.str "hello")).2.1 "hello" rfl (by decide)

/-- C6 counterexample: the bare empty string is not used as is; the falsy
check precedes the string check, so it normalizes to the fallback
sentence, refuting the claimed priority order. -/
theorem response_normalization_counterexample :
    normalizeAnswer (JSVal.str "") = JSVal.str "No answer from LLM."
    ∧ normalizeAnswer (JSVal.str "") ≠ JSVal.str "" := by
  constructor
  · rfl
  · intro h
    injection h with h2
    exact absurd h2 (by decide)

/-- C7: a conversation of more than 6 turns contributes to the context
exactly the history header followed by its most recent 6 turns in their
original order; the earlier turns are dropped. -/
theorem conversation_truncated_to_last_six (pr : Option PropertyRow) (retr : List Row)
    (mk : Nat) (conv : List Turn) (h : 6 < conv.length) :
    ∃ dropped kept, conv = dropped ++ kept ∧ kept.length = 6
      ∧ dropped.length = conv.length - 6
      ∧ buildContextParts pr retr mk conv
          = buildContextParts pr retr mk []
            ++ ("Conversation history:" :: kept.map renderTurn) := by
  refine ⟨conv.take (conv.length - 6), conv.drop (conv.length - 6),
    (List.take_append_drop _ _).symm, ?_, ?_, ?_⟩
  · rw [List.length_drop]
    omega
  · rw [List.length_take]
    omega
  · have h0 : conv.length ≠ 0 := by omega
    simp [buildContextParts, h0, List.append_assoc]

theorem conversation_truncated_witness :
    ∃ dropped kept,
      ([⟨"user", "t1"⟩, ⟨"assistant", "t2"⟩, ⟨"user", "t3"⟩, ⟨"assistant", "t4"⟩,
        ⟨"user", "t5"⟩, ⟨"assistant", "t6"⟩, ⟨"user", "t7"⟩] : List Turn) = dropped ++ kept
      ∧ kept.length = 6
      ∧ dropped.length = ([⟨"user", "t1"⟩, ⟨"assistant", "t2"⟩, ⟨"user", "t3"⟩,
          ⟨"assistant", "t4"⟩, ⟨"user", "t5"⟩, ⟨"assistant", "t6"⟩,
          ⟨"user", "t7"⟩] : List Turn).length - 6
      ∧ buildContextParts none [] 4 [⟨"user", "t1"⟩, ⟨"assistant", "t2"⟩, ⟨"user", "t3"⟩,
          ⟨"assistant", "t4"⟩, ⟨"user", "t5"⟩, ⟨"assistant", "t6"⟩, ⟨"user", "t7"⟩]
          = buildContextParts none [] 4 []
            ++ ("Conversation history:" :: kept.map renderTurn) :=
  conversation_truncated_to_last_six none [] 4 _ (by decide)

/-- C8: every success response of the handler carries a contextSummary of
at most 6 entries, however many context lines were assembled. -/
theorem aiRagSearch_contextSummary_capped (dK : Nat) (body : Option RequestBody)
    (embedO : EmbedOutcome) (rpcO : RpcOutcome) (lookupO : LookupOutcome)
    (qrogO : QrogOutcome) (a : JSVal) (ctx : List String) (n : Nat)
    (h : (handler dK body embedO rpcO lookupO qrogO).1 = .success a ctx n) :
    ctx.length ≤ 6 := by
  cases body with
  | none => simp [handler] at h
  | some b =>
    by_cases hq : jsTrim (b.query.getD "") = ""
    · simp [handler, hq] at h
    · cases embedO with
      | fails => simp [handler, hq] at h
      | ok vec =>
        cases qrogO with
        | httpError => simp [handler, hq] at h
        | transportError => simp [handler, hq] at h
        | ok data =>
          simp [handler, hq] at h
          obtain ⟨-, hctx, -⟩ := h
          subst hctx
          exact List.length_take_le 6 _

theorem aiRagSearch_contextSummary_capped_witness :
    (["Property Title: T", "Price: NGN 5m", "Context doc 1: A"] : List String).length ≤ 6 :=
  aiRagSearch_contextSummary_capped 4 (some ⟨some "hi", some "p1", none, none⟩) (.ok [])
    (.okResult (some [[("metadata", .obj [("text", .str "A")])]]))
    (.found ⟨.str "p1", .str "T", .undefinedV, .str "5m", .undefinedV, .undefinedV, .undefinedV, .undefinedV,
      .undefinedV, .undefinedV, .undefinedV, .undefinedV, .undefinedV, .undefinedV⟩)
    (.ok (.str "yo")) (.str "yo") _ 1 rfl

/-- C9: prompt assembly is deterministic; two runs over equal inputs
(query, property row result, similarity response, K, conversation) build
equal prompt strings. -/
theorem prompt_assembly_deterministic (q₁ q₂ : String) (pr₁ pr₂ : Option PropertyRow)
    (r₁ r₂ : List Row) (k₁ k₂ : Nat) (cv₁ cv₂ : List Turn)
    (hq : q₁ = q₂) (hp : pr₁ = pr₂) (hr : r₁ = r₂) (hk : k₁ = k₂) (hc : cv₁ = cv₂) :
    buildPrompt q₁ pr₁ r₁ k₁ cv₁ = buildPrompt q₂ pr₂ r₂ k₂ cv₂ := by
  subst hq hp hr hk hc
  rfl

theorem prompt_assembly_deterministic_witness :
    buildPrompt "hi" none [] 4 [] = buildPrompt "hi" none [] 4 [] :=
  prompt_assembly_deterministic "hi" "hi" none none [] [] 4 4 [] [] rfl rfl rfl rfl rfl

/-- C10: an investment_index or market_sentiment field equal to zero is
falsy, so its line is absent from the assembled context and the field
behaves exactly like an absent (undefined) field. -/
theorem zero_scores_omitted (p : PropertyRow) (mk : Nat) :
    (p.investment_index = JSVal.num 0 →
      (∀ s, ("Investment index: " ++ s) ∉ buildContextParts (some p) [] mk [])
      ∧ ∀ retr conv, buildContextParts (some p) retr mk conv
          = buildContextParts (some { p with investment_index := JSVal.undefinedV }) retr mk conv)
  ∧ (p.market_sentiment = JSVal.num 0 →
      (∀ s, ("Market sentiment: " ++ s) ∉ buildContextParts (some p) [] mk [])
      ∧ ∀ retr conv, buildContextParts (some p) retr mk conv
          = buildContextParts (some { p with market_sentiment := JSVal.undefinedV }) retr mk conv) := by
  constructor
  · intro h1
    constructor
    · intro s hmem
      simp only [buildContextParts, List.take_nil, List.enum_nil, List.map_nil,
        List.length_nil, ne_eq, not_true_eq_false, if_false, List.append_nil,
        List.singleton_append, List.mem_cons, List.mem_append,
        List.mem_ite_nil_right, List.mem_ite_nil_left, List.mem_singleton,
        List.not_mem_nil, or_false, h1, truthy_num_zero,
        Bool.false_eq_true, false_and] at hmem
      rcases hmem with ((((((((h | h) | h) | h) | h) | h) | h) | h) | h)
      · exact append_head_ne_absurd (by decide) _ _ _ _ h rfl rfl
      · exact append_head_ne_absurd (by decide) _ _ _ _ h.2 rfl rfl
      · exact append_head_ne_absurd (by decide) _ _ _ _ h rfl rfl
      · exact append_head_ne_absurd (by decide) _ _ _ _ h.2 rfl rfl
      · exact append_head_ne_absurd (by decide) _ _ _ _ h.2 rfl rfl
      · exact append_head_ne_absurd (by decide) _ _ _ _ h.2 rfl rfl
      · exact append_head_ne_absurd (by decide) _ _ _ _ h.2 rfl rfl
      · exact append_head_ne_absurd (by decide) _ _ _ _ h.2 rfl rfl
      · exact append_head_ne_absurd (by decide) _ _ _ _ h.2 rfl rfl
    · intro retr conv
      simp [buildContextParts, h1, truthy_num_zero, truthy_undefinedV]
  · intro h2
    constructor
    · intro s hmem
      simp only [buildContextParts, List.take_nil, List.enum_nil, List.map_nil,
        List.length_nil, ne_eq, not_true_eq_false, if_false, List.append_nil,
        List.singleton_append, List.mem_cons, List.mem_append,
        List.mem_ite_nil_right, List.mem_ite_nil_left, List.mem_singleton,
        List.not_mem_nil, or_false, h2, truthy_num_zero,
        Bool.false_eq_true, false_and] at hmem
      rcases hmem with ((((((((h | h) | h) | h) | h) | h) | h) | h) | h)
      · exact append_head_ne_absurd (by decide) _ _ _ _ h rfl rfl
      · exact append_head_ne_absurd (by decide) _ _ _ _ h.2 rfl rfl
      · exact append_head_ne_absurd (by decide) _ _ _ _ h rfl rfl
      · exact append_head_ne_absurd (by decide) _ _ _ _ h.2 rfl rfl
      · exact append_head_ne_absurd (by decide) _ _ _ _ h.2 rfl rfl
      · exact append_head_ne_absurd (by decide) _ _ _ _ h.2 rfl rfl
      · exact append_head_ne_absurd (by decide) _ _ _ _ h.2 rfl rfl
      · exact append_head_ne_absurd (by decide) _ _ _ _ h.2 rfl rfl
      · exact append_head_ne_absurd (by decide) _ _ _ _ h.2 rfl rfl
    · intro retr conv
      simp [buildContextParts, h2, truthy_num_zero, truthy_undefinedV]

theorem zero_scores_omitted_witness :
    (∀ s, ("Investment index: " ++ s) ∉ buildContextParts
        (some ⟨.str "p1", .str "T", .undefinedV, .undefinedV, .undefinedV, .undefinedV, .undefinedV, .undefinedV,
          .undefinedV, .undefinedV, .undefinedV, .undefinedV, .num 0, .num 0⟩) [] 4 [])
    ∧ ∀ retr conv, buildContextParts
        (some ⟨.str "p1", .str "T", .undefinedV, .undefinedV, .undefinedV, .undefinedV, .undefinedV, .undefinedV,
          .undefinedV, .undefinedV, .undefinedV, .undefinedV, .num 0, .num 0⟩) retr 4 conv
      = buildContextParts
          (some ⟨.str "p1", .str "T", .undefinedV, .undefinedV, .undefinedV, .undefinedV, .undefinedV, .undefinedV,
            .undefinedV, .undefinedV, .undefinedV, .undefinedV, .undefinedV, .num 0⟩) retr 4 conv :=
  (zero_scores_omitted ⟨.str "p1", .str "T", .undefinedV, .undefinedV, .undefinedV, .undefinedV, .undefinedV,
    .undefinedV, .undefinedV, .undefinedV, .undefinedV, .undefinedV, .num 0, .num 0⟩ 4).1 rfl

end EaglesOak
